import Mathlib

/-!
Verification of the GtelegBot notification/reminder engine.

Shallow embedding of the core logic of `src/main.py` (with the stable
variant `src/mainSTABLE.py` where a claim cites it): the poll cycle body
of `poll_loop`, the reminder job `reminder_loop`, the acknowledgment
handler `cb_mark_read`, and the persisted-state loader `load_json`.
External collaborators (the Gmail API, the Telegram transport, the JSON
parser of the standard library) are modelled by their observable
outcomes: fetched message metadata is an input list, message sends are
recorded as events, and the transport's returned message identifiers
are drawn from a counter starting at 1 (Telegram message ids are
positive integers).
-/

namespace GtelegBot

/-- Polling interval in seconds (src/main.py line 40). -/
def POLL_INTERVAL : Nat := 60

/-- Delay before the first reminder, seconds (src/main.py line 41). -/
def FIRST_REMINDER : Nat := 60

/-- Delay before the final reminder, seconds (src/main.py line 42). -/
def LOOP_REMINDER : Nat := 5 * 60

/-- The unread store: a map from Gmail message id to the recorded
`tg_msg_id` field (`none` models the JSON value `null`, written for
messages blocked by the whitelist).  Python dicts preserve insertion
order, so the store is an association list. -/
abbrev Store := List (String × Option Nat)

/-- Dictionary lookup, `store.get(gid)`. -/
def dlookup : Store → String → Option (Option Nat)
  | [], _ => none
  | (k, v) :: rest, g => if k = g then some v else dlookup rest g

/-- Dictionary assignment, `store[gid] = v`: replace in place when the
key is present, append otherwise (Python dict semantics). -/
def dinsert : Store → String → Option Nat → Store
  | [], g, v => [(g, v)]
  | (k, w) :: rest, g, v =>
      if k = g then (g, v) :: rest else (k, w) :: dinsert rest g v

/-- Dictionary removal, `store.pop(gid, None)` (drops the first, hence
only, binding of the key). -/
def derase : Store → String → Store
  | [], _ => []
  | (k, w) :: rest, g => if k = g then rest else (k, w) :: derase rest g

/-- Outcome of reading a persisted JSON file: the file may be missing
(`os.path.exists` is false), or present with the result of `json.load`
on its contents — `some v` when the contents parse, `none` when
`json.load` raises `JSONDecodeError` on malformed contents.  The JSON
parser itself is the Python standard library, external to the core. -/
inductive FileRead (α : Type) where
  | missing : FileRead α
  | content : Option α → FileRead α

/-- Embeds `load_json` (src/main.py lines 78-81): when the file exists
its contents are handed to `json.load` with no exception handler, so a
parse failure propagates as an error; only a missing file yields the
default. -/
def load_json (dflt : α) : FileRead α → Except String α
  | .missing => .ok dflt
  | .content (some v) => .ok v
  | .content none => .error "JSONDecodeError"

/-- Characters after the first `@` of a character list; `none` when no
`@` occurs. -/
def afterAt : List Char → Option (List Char)
  | [] => none
  | ch :: rest => if ch = '@' then some rest else afterAt rest

/-- Embeds `addr.split("@", 1)[1]` (src/main.py line 433): everything
after the first `@`.  When the address contains no `@`, the Python
expression raises `IndexError` (the split yields a one-element list),
modelled as `none`. -/
def domainOf (addr : String) : Option String :=
  (afterAt addr.data).map String.mk

/-- Embeds `e.startswith("*@")` (src/main.py lines 403-404). -/
def isWildcard (e : String) : Bool :=
  match e.data with
  | '*' :: '@' :: _ => true
  | _ => false

/-- Exact-address whitelist entries (src/main.py line 403). -/
def email_wl (entries : List String) : List String :=
  entries.filter (fun e => !(isWildcard e))

/-- Wildcard-domain whitelist entries with the `*@` stripped
(src/main.py line 404). -/
def domain_wl (entries : List String) : List String :=
  (entries.filter (fun e => isWildcard e)).map (fun e => e.drop 2)

/-- The allow decision for a sender address (src/main.py lines 433-434):
the domain is extracted first, so an address without `@` raises before
the whitelist is consulted (`none`); otherwise the address must match an
exact entry or its domain a wildcard entry. -/
def wlAllows (entries : List String) (addr : String) : Option Bool :=
  match domainOf addr with
  | none => none
  | some d =>
      some ((email_wl entries).contains addr || (domain_wl entries).contains d)

/-- Metadata of one unread message as fetched per cycle: the Gmail id,
the internal timestamp (`int(detail["internalDate"])`, milliseconds),
and the sender address already extracted by `parseaddr` from the `From`
header (src/main.py lines 413-432). -/
structure Msg where
  gid : String
  ts : Nat
  addr : String
deriving DecidableEq, Repr

/-- Observable actions of a poll cycle, in program order. -/
inductive Event where
  | sendNotif (gid : String) (ts : Nat) (tgId : Nat)
  | persistStore (s : Store)
  | persistCursor (ts : Nat)
  | startReminder (gid : String)
deriving DecidableEq, Repr

/-- State threaded through the per-message loop of one poll cycle. -/
structure RunRes where
  newTs : Nat
  store : Store
  nextTg : Nat
  events : List Event
  ok : Bool
deriving Repr

/-- The per-message loop of one poll cycle (src/main.py lines 412-458).
For each fetched message: fold its timestamp into `new_ts`; skip it when
its timestamp is at or below the cycle-start cursor; extract the sender
domain (raising — `ok := false`, remaining messages unprocessed — when
the address has no `@`); for a blocked sender record a null-reference
store entry and persist the store; for an allowed sender send the
notification, record the returned message id, persist the store, and
start a reminder job. -/
def runMsgs (cursor : Nat) (entries : List String)
    (newTs : Nat) (store : Store) (nextTg : Nat) : List Msg → RunRes
  | [] => { newTs := newTs, store := store, nextTg := nextTg, events := [], ok := true }
  | m :: rest =>
    let newTs' := max newTs m.ts
    if m.ts ≤ cursor then
      runMsgs cursor entries newTs' store nextTg rest
    else
      match domainOf m.addr with
      | none =>
          { newTs := newTs', store := store, nextTg := nextTg, events := [], ok := false }
      | some d =>
          if (email_wl entries).contains m.addr || (domain_wl entries).contains d then
            let st := dinsert store m.gid (some nextTg)
            let r := runMsgs cursor entries newTs' st (nextTg + 1) rest
            { r with events :=
                .sendNotif m.gid m.ts nextTg :: .persistStore st ::
                .startReminder m.gid :: r.events }
          else
            let st := dinsert store m.gid none
            let r := runMsgs cursor entries newTs' st nextTg rest
            { r with events := .persistStore st :: r.events }

/-- Result of one poll cycle: the cursor and in-memory store after the
cycle, and the events it emitted. -/
structure CycleResult where
  cursor : Nat
  store : Store
  events : List Event
  ok : Bool
deriving Repr

/-- One iteration of the `while True` body of `poll_loop`
(src/main.py lines 398-461).  `new_ts` starts at the cycle-start cursor;
when every message is processed without an exception the global cursor
is assigned `new_ts` and persisted by `save_state`; when an exception
aborts the cycle mid-way, the handler only logs, so the in-memory store
keeps the mutations made so far but the cursor is left unchanged. -/
def pollCycle (entries : List String) (cursor : Nat) (store : Store)
    (msgs : List Msg) : CycleResult :=
  let r := runMsgs cursor entries cursor store 1 msgs
  if r.ok then
    { cursor := r.newTs, store := r.store,
      events := r.events ++ [.persistCursor r.newTs], ok := true }
  else
    { cursor := cursor, store := r.store, events := r.events, ok := false }

/-- Cursor and in-memory store after a sequence of poll cycles, each fed
its own fetched batch. -/
def pollMany (entries : List String) : Nat × Store → List (List Msg) → Nat × Store
  | cs, [] => cs
  | (c, s), b :: bs =>
      let r := pollCycle entries c s b
      pollMany entries (r.cursor, r.store) bs

/-- Python truthiness of `info and info.get("tg_msg_id")` in
`reminder_loop` (src/main.py lines 471 and 480): the store entry must be
present and its `tg_msg_id` field a non-`null`, non-zero value. -/
def truthyRef : Option (Option Nat) → Bool
  | some (some t) => t ≠ 0
  | some none => false
  | none => false

/-- The two sends a reminder job may perform: each is the elapsed time
since job start (seconds) paired with the message text. -/
structure ReminderRun where
  first : Option (Nat × String)
  final : Option (Nat × String)
deriving DecidableEq, Repr

/-- Embeds `reminder_loop` (src/main.py lines 468-485).  The job sleeps
`FIRST_REMINDER` seconds, re-reads the persisted store (snapshot
`store1`) and sends the first reminder only when the entry is present
with a truthy reference; it then sleeps `LOOP_REMINDER` more seconds,
re-reads again (snapshot `store2`) and sends the final reminder under
the same rule; there is no further iteration. -/
def reminder_loop (gid : String) (store1 store2 : Store) : ReminderRun :=
  { first :=
      if truthyRef (dlookup store1 gid) then
        some (FIRST_REMINDER, "📌 Reminder: you still have an unread message.")
      else none,
    final :=
      if truthyRef (dlookup store2 gid) then
        some (FIRST_REMINDER + LOOP_REMINDER,
          "📌 Final reminder: please mark that message as read.")
      else none }

/-- The reminder messages actually sent, in order. -/
def ReminderRun.sends (r : ReminderRun) : List (Nat × String) :=
  r.first.toList ++ r.final.toList

/-- Observable actions of the acknowledgment handler. -/
inductive AckEvent where
  | clearUnread (gid : String)
  | persistStore (s : Store)
  | cancelTask (gid : String)
  | editStrike
  | answer (text : String)
  | answerEmpty
deriving DecidableEq, Repr

/-- Embeds `cb_mark_read` of src/main.py (lines 370-389), after the
authorization guard: the Gmail `UNREAD` label is removed, the store
entry popped (a no-op pop when absent) and the store re-persisted, the
reminder task cancelled when one is registered, the chat message edited
to strike-through, and the callback answered — all unconditionally,
with no membership check on the store. -/
def cb_mark_read_main (gid : String) (store : Store) (hasTask : Bool) :
    Store × List AckEvent :=
  let store' := derase store gid
  (store',
    [.clearUnread gid, .persistStore store'] ++
    (if hasTask then [.cancelTask gid] else []) ++
    [.editStrike, .answer "Marked as read."])

/-- Embeds `cb_mark_read` of src/mainSTABLE.py (lines 388-406): the
handler looks the id up first and, when absent, answers the callback
with no text and returns without further action; when present it edits
the chat message, cancels the reminder task when one is registered,
removes the entry, persists the store, and answers. -/
def cb_mark_read_stable (gid : String) (store : Store) (hasTask : Bool) :
    Store × List AckEvent :=
  match dlookup store gid with
  | none => (store, [.answerEmpty])
  | some _ =>
      let store' := derase store gid
      (store',
        [.editStrike] ++
        (if hasTask then [.cancelTask gid] else []) ++
        [.persistStore store', .answer "Marked as read."])

/-- The Gmail ids of the delivery notifications in an event list, in
send order. -/
def deliveredGids (events : List Event) : List String :=
  events.filterMap (fun e =>
    match e with
    | .sendNotif g _ _ => some g
    | _ => none)

/-- The internal timestamps of the delivery notifications in an event
list, in send order. -/
def deliveredTs (events : List Event) : List Nat :=
  events.filterMap (fun e =>
    match e with
    | .sendNotif _ t _ => some t
    | _ => none)

/-- Recognizes a store-persistence event. -/
def isPersistStore : Event → Bool
  | .persistStore _ => true
  | _ => false

/-- Recognizes a cursor-persistence event. -/
def isPersistCursor : Event → Bool
  | .persistCursor _ => true
  | _ => false

/-! ### Helper lemmas -/

/-- Lookup after a dictionary assignment. -/
theorem dlookup_dinsert (s : Store) (k g : String) (v : Option Nat) :
    dlookup (dinsert s k v) g = if k = g then some v else dlookup s g := by
  induction s with
  | nil => simp [dinsert, dlookup]
  | cons p rest ih =>
      obtain ⟨k', w⟩ := p
      by_cases hk : k' = k
      · subst hk
        by_cases hg : k' = g <;> simp [dinsert, dlookup, hg]
      · by_cases hg : k' = g
        · subst hg
          have hkg : ¬ k = k' := fun h => hk h.symm
          simp [dinsert, dlookup, hk, hkg]
        · simp [dinsert, dlookup, hk, hg, ih]

/-- The last element of a list extended by one element. -/
theorem getLast?_app_single (l : List α) (a : α) :
    (l ++ [a]).getLast? = some a := by
  induction l with
  | nil => rfl
  | cons b rest ih =>
      rw [List.cons_append, List.getLast?_cons]
      simp [ih]

/-- A filter over elements that all fail the predicate is empty. -/
theorem filter_eq_nil_of_none (p : α → Bool) (l : List α)
    (h : ∀ a ∈ l, p a = false) : l.filter p = [] := by
  induction l with
  | nil => rfl
  | cons b rest ih =>
      have hb := h b (List.mem_cons_self b rest)
      simp [List.filter_cons, hb, ih fun a ha => h a (List.mem_cons_of_mem b ha)]

/-- The seed is below a left fold of `max` over message timestamps. -/
theorem le_foldl_max (l : List Msg) : ∀ a : Nat,
    a ≤ l.foldl (fun x m => max x m.ts) a := by
  induction l with
  | nil => intro a; simp
  | cons m rest ih =>
      intro a
      exact le_trans (le_max_left a m.ts) (ih (max a m.ts))

/-- Every member's timestamp is below a left fold of `max` over message
timestamps. -/
theorem mem_le_foldl_max {m : Msg} {l : List Msg} (h : m ∈ l) : ∀ a : Nat,
    m.ts ≤ l.foldl (fun x m => max x m.ts) a := by
  induction l with
  | nil => cases h
  | cons m' rest ih =>
      intro a
      rcases List.mem_cons.mp h with h' | h'
      · subst h'
        exact le_trans (le_max_right a m.ts) (le_foldl_max rest (max a m.ts))
      · exact ih h' (max a m'.ts)

/-- The running timestamp maximum never decreases across the per-message
loop. -/
theorem runMsgs_newTs_le (c : Nat) (e : List String) (msgs : List Msg) :
    ∀ nT s tg, nT ≤ (runMsgs c e nT s tg msgs).newTs := by
  induction msgs with
  | nil => intro nT s tg; simp [runMsgs]
  | cons m rest ih =>
      intro nT s tg
      simp only [runMsgs]
      split
      · exact le_trans (le_max_left nT m.ts) (ih _ _ _)
      · split
        · exact le_max_left nT m.ts
        · split
          · exact le_trans (le_max_left nT m.ts) (ih _ _ _)
          · exact le_trans (le_max_left nT m.ts) (ih _ _ _)

/-- When the per-message loop runs to completion, the resulting running
maximum is the fold of `max` over all fetched timestamps. -/
theorem runMsgs_ok_newTs (c : Nat) (e : List String) (msgs : List Msg) :
    ∀ nT s tg, (runMsgs c e nT s tg msgs).ok = true →
      (runMsgs c e nT s tg msgs).newTs = msgs.foldl (fun x m => max x m.ts) nT := by
  induction msgs with
  | nil => intro nT s tg _; simp [runMsgs]
  | cons m rest ih =>
      intro nT s tg hok
      by_cases hle : m.ts ≤ c
      · simp only [runMsgs, if_pos hle] at hok ⊢
        rw [List.foldl_cons]
        exact ih _ _ _ hok
      · simp only [runMsgs, if_neg hle] at hok ⊢
        cases hd : domainOf m.addr with
        | none => simp [hd] at hok
        | some d =>
            simp only [hd] at hok ⊢
            by_cases hc : ((email_wl e).contains m.addr || (domain_wl e).contains d) = true
            · simp only [if_pos hc] at hok ⊢
              rw [List.foldl_cons]
              exact ih _ _ _ hok
            · simp only [if_neg hc] at hok ⊢
              rw [List.foldl_cons]
              exact ih _ _ _ hok

/-- Every delivery notification in a per-message run carries a timestamp
strictly above the cycle-start cursor. -/
theorem runMsgs_send_gt (c : Nat) (e : List String) (msgs : List Msg) :
    ∀ nT s tg g t i,
      Event.sendNotif g t i ∈ (runMsgs c e nT s tg msgs).events → c < t := by
  induction msgs with
  | nil => intro nT s tg g t i h; simp [runMsgs] at h
  | cons m rest ih =>
      intro nT s tg g t i h
      by_cases hle : m.ts ≤ c
      · simp only [runMsgs, if_pos hle] at h
        exact ih _ _ _ _ _ _ h
      · simp only [runMsgs, if_neg hle] at h
        cases hd : domainOf m.addr with
        | none => simp [hd] at h
        | some d =>
            simp only [hd] at h
            by_cases hc : ((email_wl e).contains m.addr || (domain_wl e).contains d) = true
            · simp only [if_pos hc, List.mem_cons] at h
              rcases h with h | h | h | h
              · cases h; exact lt_of_not_le hle
              · cases h
              · cases h
              · exact ih _ _ _ _ _ _ h
            · simp only [if_neg hc, List.mem_cons] at h
              rcases h with h | h
              · cases h
              · exact ih _ _ _ _ _ _ h

/-- Every delivery notification in a per-message run originates from a
fetched message that was newer than the cursor and allowed by the
whitelist. -/
theorem runMsgs_send_origin (c : Nat) (e : List String) (msgs : List Msg) :
    ∀ nT s tg g t i,
      Event.sendNotif g t i ∈ (runMsgs c e nT s tg msgs).events →
      ∃ m ∈ msgs, m.gid = g ∧ m.ts = t ∧ c < m.ts ∧ wlAllows e m.addr = some true := by
  induction msgs with
  | nil => intro nT s tg g t i h; simp [runMsgs] at h
  | cons m rest ih =>
      intro nT s tg g t i h
      by_cases hle : m.ts ≤ c
      · simp only [runMsgs, if_pos hle] at h
        obtain ⟨m', hm', hrest⟩ := ih _ _ _ _ _ _ h
        exact ⟨m', List.mem_cons_of_mem m hm', hrest⟩
      · simp only [runMsgs, if_neg hle] at h
        cases hd : domainOf m.addr with
        | none => simp [hd] at h
        | some d =>
            simp only [hd] at h
            by_cases hc : ((email_wl e).contains m.addr || (domain_wl e).contains d) = true
            · simp only [if_pos hc, List.mem_cons] at h
              rcases h with h | h | h | h
              · cases h
                exact ⟨m, List.mem_cons_self m rest, rfl, rfl, lt_of_not_le hle,
                  by simp only [wlAllows, hd, hc]⟩
              · cases h
              · cases h
              · obtain ⟨m', hm', hrest⟩ := ih _ _ _ _ _ _ h
                exact ⟨m', List.mem_cons_of_mem m hm', hrest⟩
            · simp only [if_neg hc, List.mem_cons] at h
              rcases h with h | h
              · cases h
              · obtain ⟨m', hm', hrest⟩ := ih _ _ _ _ _ _ h
                exact ⟨m', List.mem_cons_of_mem m hm', hrest⟩

/-- Every reminder-job start in a per-message run originates from a
fetched message that was newer than the cursor and allowed by the
whitelist. -/
theorem runMsgs_reminder_origin (c : Nat) (e : List String) (msgs : List Msg) :
    ∀ nT s tg g,
      Event.startReminder g ∈ (runMsgs c e nT s tg msgs).events →
      ∃ m ∈ msgs, m.gid = g ∧ c < m.ts ∧ wlAllows e m.addr = some true := by
  induction msgs with
  | nil => intro nT s tg g h; simp [runMsgs] at h
  | cons m rest ih =>
      intro nT s tg g h
      by_cases hle : m.ts ≤ c
      · simp only [runMsgs, if_pos hle] at h
        obtain ⟨m', hm', hrest⟩ := ih _ _ _ _ h
        exact ⟨m', List.mem_cons_of_mem m hm', hrest⟩
      · simp only [runMsgs, if_neg hle] at h
        cases hd : domainOf m.addr with
        | none => simp [hd] at h
        | some d =>
            simp only [hd] at h
            by_cases hc : ((email_wl e).contains m.addr || (domain_wl e).contains d) = true
            · simp only [if_pos hc, List.mem_cons] at h
              rcases h with h | h | h | h
              · cases h
              · cases h
              · cases h
                exact ⟨m, List.mem_cons_self m rest, rfl, lt_of_not_le hle,
                  by simp only [wlAllows, hd, hc]⟩
              · obtain ⟨m', hm', hrest⟩ := ih _ _ _ _ h
                exact ⟨m', List.mem_cons_of_mem m hm', hrest⟩
            · simp only [if_neg hc, List.mem_cons] at h
              rcases h with h | h
              · cases h
              · obtain ⟨m', hm', hrest⟩ := ih _ _ _ _ h
                exact ⟨m', List.mem_cons_of_mem m hm', hrest⟩

/-- A per-message run leaves every store key it never writes unchanged. -/
theorem runMsgs_store_untouched (c : Nat) (e : List String) (msgs : List Msg) :
    ∀ nT s tg g, (∀ m ∈ msgs, m.gid ≠ g) →
      dlookup (runMsgs c e nT s tg msgs).store g = dlookup s g := by
  induction msgs with
  | nil => intro nT s tg g _; simp [runMsgs]
  | cons m rest ih =>
      intro nT s tg g hg
      have hm : m.gid ≠ g := hg m (List.mem_cons_self m rest)
      have hrest : ∀ m' ∈ rest, m'.gid ≠ g :=
        fun m' h' => hg m' (List.mem_cons_of_mem m h')
      by_cases hle : m.ts ≤ c
      · simp only [runMsgs, if_pos hle]
        exact ih _ _ _ _ hrest
      · simp only [runMsgs, if_neg hle]
        cases hd : domainOf m.addr with
        | none => simp
        | some d =>
            by_cases hc : ((email_wl e).contains m.addr || (domain_wl e).contains d) = true
            · simp only [if_pos hc]
              rw [ih _ _ _ _ hrest, dlookup_dinsert, if_neg hm]
            · simp only [if_neg hc]
              rw [ih _ _ _ _ hrest, dlookup_dinsert, if_neg hm]

/-- The per-message loop never persists the cursor: only the end of a
completed cycle does. -/
theorem runMsgs_no_persistCursor (c : Nat) (e : List String) (msgs : List Msg) :
    ∀ nT s tg ev, ev ∈ (runMsgs c e nT s tg msgs).events →
      isPersistCursor ev = false := by
  induction msgs with
  | nil => intro nT s tg ev h; simp [runMsgs] at h
  | cons m rest ih =>
      intro nT s tg ev h
      by_cases hle : m.ts ≤ c
      · simp only [runMsgs, if_pos hle] at h
        exact ih _ _ _ _ h
      · simp only [runMsgs, if_neg hle] at h
        cases hd : domainOf m.addr with
        | none => simp [hd] at h
        | some d =>
            simp only [hd] at h
            by_cases hc : ((email_wl e).contains m.addr || (domain_wl e).contains d) = true
            · simp only [if_pos hc, List.mem_cons] at h
              rcases h with h | h | h | h
              · subst h; rfl
              · subst h; rfl
              · subst h; rfl
              · exact ih _ _ _ _ h
            · simp only [if_neg hc, List.mem_cons] at h
              rcases h with h | h
              · subst h; rfl
              · exact ih _ _ _ _ h

/-- In a completed per-message run the store is persisted exactly once
per processed message: once for every fetched message whose timestamp
exceeds the cycle-start cursor, blocked or delivered alike. -/
theorem runMsgs_persist_count (c : Nat) (e : List String) (msgs : List Msg) :
    ∀ nT s tg, (runMsgs c e nT s tg msgs).ok = true →
      ((runMsgs c e nT s tg msgs).events.filter isPersistStore).length =
        msgs.countP (fun m => decide (c < m.ts)) := by
  induction msgs with
  | nil => intro nT s tg _; simp [runMsgs]
  | cons m rest ih =>
      intro nT s tg hok
      by_cases hle : m.ts ≤ c
      · simp only [runMsgs, if_pos hle] at hok ⊢
        rw [List.countP_cons, ih _ _ _ hok]
        simp [Nat.not_lt.mpr hle]
      · simp only [runMsgs, if_neg hle] at hok ⊢
        cases hd : domainOf m.addr with
        | none => simp [hd] at hok
        | some d =>
            simp only [hd] at hok ⊢
            by_cases hc : ((email_wl e).contains m.addr || (domain_wl e).contains d) = true
            · simp only [if_pos hc] at hok ⊢
              rw [List.countP_cons]
              simp [List.filter_cons, isPersistStore, ih _ _ _ hok,
                Nat.lt_of_not_le hle]
            · simp only [if_neg hc] at hok ⊢
              rw [List.countP_cons]
              simp [List.filter_cons, isPersistStore, ih _ _ _ hok,
                Nat.lt_of_not_le hle]

/-- In a completed per-message run, the sequence of delivered Gmail ids
is exactly the new-and-allowed messages in fetch order: the loop sends
in list order and never reorders by timestamp. -/
theorem runMsgs_delivered (c : Nat) (e : List String) (msgs : List Msg) :
    ∀ nT s tg, (runMsgs c e nT s tg msgs).ok = true →
      deliveredGids (runMsgs c e nT s tg msgs).events =
        (msgs.filter (fun m =>
          decide (c < m.ts) && (wlAllows e m.addr == some true))).map Msg.gid := by
  induction msgs with
  | nil => intro nT s tg _; simp [runMsgs, deliveredGids]
  | cons m rest ih =>
      intro nT s tg hok
      by_cases hle : m.ts ≤ c
      · simp only [runMsgs, if_pos hle] at hok ⊢
        rw [List.filter_cons]
        have hdec : decide (c < m.ts) = false := decide_eq_false (Nat.not_lt.mpr hle)
        simp only [hdec, Bool.false_and, Bool.false_eq_true, if_false]
        exact ih _ _ _ hok
      · simp only [runMsgs, if_neg hle] at hok ⊢
        have hdec : decide (c < m.ts) = true := decide_eq_true (Nat.lt_of_not_le hle)
        cases hd : domainOf m.addr with
        | none => simp [hd] at hok
        | some d =>
            simp only [hd] at hok ⊢
            by_cases hc : ((email_wl e).contains m.addr || (domain_wl e).contains d) = true
            · simp only [if_pos hc] at hok ⊢
              rw [List.filter_cons]
              have hw : wlAllows e m.addr = some true := by
                simp only [wlAllows, hd, hc]
              simp only [hdec, hw, Bool.true_and]
              rw [if_pos (by simp)]
              simp only [deliveredGids, List.filterMap_cons, List.map_cons]
              simpa [deliveredGids] using ih _ _ _ hok
            · simp only [if_neg hc] at hok ⊢
              rw [List.filter_cons]
              have hw : wlAllows e m.addr = some false := by
                simp only [wlAllows, hd]
                rw [Bool.eq_false_iff.mpr hc]
              simp only [hdec, hw, Bool.true_and]
              rw [if_neg (by simp)]
              simp only [deliveredGids, List.filterMap_cons]
              simpa [deliveredGids] using ih _ _ _ hok

/-- After a completed per-message run over messages with distinct ids, a
new message whose sender is blocked by the whitelist is recorded in the
store with a null notification reference. -/
theorem runMsgs_blocked_store (c : Nat) (e : List String) (msgs : List Msg) :
    ∀ nT s tg m, (msgs.map Msg.gid).Nodup → m ∈ msgs → c < m.ts →
      wlAllows e m.addr = some false →
      (runMsgs c e nT s tg msgs).ok = true →
      dlookup (runMsgs c e nT s tg msgs).store m.gid = some none := by
  induction msgs with
  | nil => intro nT s tg m _ hm; cases hm
  | cons m' rest ih =>
      intro nT s tg m hnd hm hts hblock hok
      have hndtail : (rest.map Msg.gid).Nodup := (List.nodup_cons.mp hnd).2
      rcases List.mem_cons.mp hm with heq | hmem
      · subst heq
        have hle : ¬ m.ts ≤ c := Nat.not_le.mpr hts
        obtain ⟨d, hd, hc⟩ : ∃ d, domainOf m.addr = some d ∧
            ((email_wl e).contains m.addr || (domain_wl e).contains d) = false := by
          cases hd : domainOf m.addr with
          | none => rw [wlAllows, hd] at hblock; cases hblock
          | some d =>
              rw [wlAllows, hd] at hblock
              exact ⟨d, rfl, by injection hblock⟩
        have hnotin : ∀ m'' ∈ rest, m''.gid ≠ m.gid := by
          intro m'' h'' heq''
          exact (List.nodup_cons.mp hnd).1 (heq'' ▸ List.mem_map_of_mem Msg.gid h'')
        simp only [runMsgs, if_neg hle, hd, hc, Bool.false_eq_true, if_false]
        rw [runMsgs_store_untouched c e rest _ _ _ _ hnotin,
          dlookup_dinsert, if_pos rfl]
      · have hgid : m.gid ≠ m'.gid := by
          intro heq''
          exact (List.nodup_cons.mp hnd).1 (heq'' ▸ List.mem_map_of_mem Msg.gid hmem)
        by_cases hle : m'.ts ≤ c
        · simp only [runMsgs, if_pos hle] at hok ⊢
          exact ih _ _ _ _ hndtail hmem hts hblock hok
        · simp only [runMsgs, if_neg hle] at hok ⊢
          cases hd : domainOf m'.addr with
          | none => simp [hd] at hok
          | some d =>
              simp only [hd] at hok ⊢
              by_cases hc : ((email_wl e).contains m'.addr || (domain_wl e).contains d) = true
              · simp only [if_pos hc] at hok ⊢
                exact ih _ _ _ _ hndtail hmem hts hblock hok
              · simp only [if_neg hc] at hok ⊢
                exact ih _ _ _ _ hndtail hmem hts hblock hok

/-- The cursor of a poll cycle never decreases. -/
theorem pollCycle_cursor_mono (e : List String) (c : Nat) (s : Store)
    (msgs : List Msg) : c ≤ (pollCycle e c s msgs).cursor := by
  simp only [pollCycle]
  split
  · exact runMsgs_newTs_le c e msgs c s 1
  · exact le_refl c

/-- The cursor after a sequence of poll cycles never decreases. -/
theorem pollMany_cursor_mono (e : List String) (bs : List (List Msg)) :
    ∀ c s, c ≤ (pollMany e (c, s) bs).1 := by
  induction bs with
  | nil => intro c s; exact le_refl c
  | cons b rest ih =>
      intro c s
      simp only [pollMany]
      exact le_trans (pollCycle_cursor_mono e c s b)
        (ih (pollCycle e c s b).cursor (pollCycle e c s b).store)

/-- Every delivery notification of a poll cycle carries a timestamp
strictly above the cycle-start cursor. -/
theorem pollCycle_send_gt (e : List String) (c : Nat) (s : Store)
    (msgs : List Msg) (g : String) (t i : Nat)
    (h : Event.sendNotif g t i ∈ (pollCycle e c s msgs).events) : c < t := by
  simp only [pollCycle] at h
  split at h
  · rcases List.mem_append.mp h with h' | h'
    · exact runMsgs_send_gt c e msgs c s 1 g t i h'
    · simp at h'
  · exact runMsgs_send_gt c e msgs c s 1 g t i h

/-- A completed poll cycle completed its per-message run. -/
theorem pollCycle_ok_run (e : List String) (c : Nat) (s : Store)
    (msgs : List Msg) (h : (pollCycle e c s msgs).ok = true) :
    (runMsgs c e c s 1 msgs).ok = true := by
  by_cases hr : (runMsgs c e c s 1 msgs).ok = true
  · exact hr
  · simp only [pollCycle, if_neg hr] at h
    cases h

/-- A completed poll cycle sets the cursor to the fold of `max` over the
cycle-start cursor and every fetched timestamp. -/
theorem pollCycle_ok_cursor (e : List String) (c : Nat) (s : Store)
    (msgs : List Msg) (h : (pollCycle e c s msgs).ok = true) :
    (pollCycle e c s msgs).cursor = msgs.foldl (fun x m => max x m.ts) c := by
  have hr := pollCycle_ok_run e c s msgs h
  simp only [pollCycle, if_pos hr]
  exact runMsgs_ok_newTs c e msgs c s 1 hr

/-! ### Claim theorems -/

/-- C2 (amended): for every poll cycle the cursor never decreases, and
no delivery notification of the cycle carries an internal timestamp at
or below the cycle-start cursor; the cursor equals the maximum of the
old cursor and the internal timestamp of every fetched message (blocked
and already-seen ones included) only when the cycle COMPLETES — an
aborted cycle leaves the cursor unchanged, below the fetched maximum. -/
theorem cursor_monotone_max_and_no_stale_delivery
    (entries : List String) (c : Nat) (s : Store) (msgs : List Msg) :
    c ≤ (pollCycle entries c s msgs).cursor ∧
    ((pollCycle entries c s msgs).ok = true →
      (pollCycle entries c s msgs).cursor =
        msgs.foldl (fun x m => max x m.ts) c) ∧
    (∀ g t i, Event.sendNotif g t i ∈ (pollCycle entries c s msgs).events →
      c < t) :=
  ⟨pollCycle_cursor_mono entries c s msgs,
   pollCycle_ok_cursor entries c s msgs,
   fun g t i h => pollCycle_send_gt entries c s msgs g t i h⟩

/-- Witness for C2 at a concrete cycle: cursor 1000, one allowed message
with timestamp 1500; the theorem's hypotheses are discharged by
evaluation. -/
theorem cursor_monotone_max_and_no_stale_delivery_witness :
    1000 ≤ (pollCycle ["a@x.com"] 1000 [] [⟨"g1", 1500, "a@x.com"⟩]).cursor ∧
    (pollCycle ["a@x.com"] 1000 [] [⟨"g1", 1500, "a@x.com"⟩]).cursor =
      [Msg.mk "g1" 1500 "a@x.com"].foldl (fun x m => max x m.ts) 1000 ∧
    1000 < 1500 :=
  let h := cursor_monotone_max_and_no_stale_delivery
    ["a@x.com"] 1000 [] [⟨"g1", 1500, "a@x.com"⟩]
  ⟨h.1, h.2.1 (by decide), h.2.2 "g1" 1500 1 (by decide)⟩

/-- C2 (counterexample): the cursor does NOT always equal the maximum of
the old cursor and every fetched timestamp.  A cycle that delivers `gA`
(timestamp 1500) and then aborts on `gB`, whose parsed sender has no
`@`, fetched timestamps up to 1600 but never reaches the cursor
assignment: the cursor stays at 1000, strictly below the fetched
maximum. -/
theorem cursor_below_fetched_max_after_aborted_cycle :
    (pollCycle ["a@x.com"] 1000 []
      [⟨"gA", 1500, "a@x.com"⟩, ⟨"gB", 1600, "bounce-notice"⟩]).cursor
      = 1000 ∧
    ([Msg.mk "gA" 1500 "a@x.com", Msg.mk "gB" 1600 "bounce-notice"].foldl
      (fun x m => max x m.ts) 1000) = 1600 ∧
    (pollCycle ["a@x.com"] 1000 []
      [⟨"gA", 1500, "a@x.com"⟩, ⟨"gB", 1600, "bounce-notice"⟩]).cursor ≠
    ([Msg.mk "gA" 1500 "a@x.com", Msg.mk "gB" 1600 "bounce-notice"].foldl
      (fun x m => max x m.ts) 1000) := by
  decide

/-- C10: the allow-list classification step is not total over sender
addresses: on an unread new message whose parsed From address contains
no `@`, the domain extraction fails (Python raises `IndexError`), the
cycle is abandoned — here a later allowed message is never delivered and
no event at all is emitted — and the cursor does not advance. -/
theorem classification_raises_without_at_sign :
    domainOf "undisclosed-recipients" = none ∧
    (pollCycle ["a@x.com"] 1000 []
      [⟨"g1", 1500, "undisclosed-recipients"⟩, ⟨"g2", 1600, "a@x.com"⟩]).ok
      = false ∧
    (pollCycle ["a@x.com"] 1000 []
      [⟨"g1", 1500, "undisclosed-recipients"⟩, ⟨"g2", 1600, "a@x.com"⟩]).events
      = [] ∧
    (pollCycle ["a@x.com"] 1000 []
      [⟨"g1", 1500, "undisclosed-recipients"⟩, ⟨"g2", 1600, "a@x.com"⟩]).cursor
      = 1000 := by
  decide

/-- C9 (counterexample): a persisted store file that exists but holds
malformed JSON does not load as the empty state — `load_json` has no
exception handler, so the parse error propagates instead of yielding the
default. -/
theorem malformed_store_file_raises :
    load_json ([] : Store) (FileRead.content none) =
      Except.error "JSONDecodeError" ∧
    load_json ([] : Store) (FileRead.content none) ≠ Except.ok ([] : Store) :=
  ⟨rfl, fun h => Except.noConfusion h⟩

/-- C9 (amended): loading falls back to the default only when the file
is missing; an existing file with parseable contents loads them, and an
existing file with malformed contents propagates the JSON parse error
(in `poll_loop` the initial store load at src/main.py line 396 sits
outside the try block, so that error ends the poll task). -/
theorem load_json_defaults_only_when_missing (dflt v : Store) :
    load_json dflt FileRead.missing = Except.ok dflt ∧
    load_json dflt (FileRead.content (some v)) = Except.ok v ∧
    load_json dflt (FileRead.content none) = Except.error "JSONDecodeError" :=
  ⟨rfl, rfl, rfl⟩

/-- C3: a reminder job re-reads the tracked-message store before each of
its two sends, and when the entry for its message id is absent at that
read — removed by acknowledgment — it sends nothing at that step, so no
reminder is ever sent after acknowledgment. -/
theorem reminder_rechecks_store_before_each_send
    (g : String) (s1 s2 : Store) :
    (dlookup s1 g = none → (reminder_loop g s1 s2).first = none) ∧
    (dlookup s2 g = none → (reminder_loop g s1 s2).final = none) := by
  constructor <;> intro h <;> simp [reminder_loop, truthyRef, h]

/-- Witness for C3: a job for `"g1"` whose entry is absent at both
re-checks sends neither reminder. -/
theorem reminder_rechecks_store_before_each_send_witness :
    (reminder_loop "g1" [] [("g2", some 5)]).first = none ∧
    (reminder_loop "g1" [] [("g2", some 5)]).final = none :=
  ⟨(reminder_rechecks_store_before_each_send "g1" [] [("g2", some 5)]).1 (by decide),
   (reminder_rechecks_store_before_each_send "g1" [] [("g2", some 5)]).2 (by decide)⟩

/-- C6: a reminder job sends at most two reminders in total; any first
reminder goes out `FIRST_REMINDER` (60) seconds after job start and any
final reminder `LOOP_REMINDER` (300) seconds after the first re-check;
the job then ends with no third escalation; and it sends zero reminders
when acknowledgment removed the entry before the first wait elapsed (and
it was not re-added by the second re-check). -/
theorem reminder_job_bounded_schedule (g : String) (s1 s2 : Store) :
    (reminder_loop g s1 s2).sends.length ≤ 2 ∧
    (∀ p ∈ (reminder_loop g s1 s2).sends,
      p.1 = FIRST_REMINDER ∨ p.1 = FIRST_REMINDER + LOOP_REMINDER) ∧
    FIRST_REMINDER = 60 ∧ LOOP_REMINDER = 300 ∧
    (dlookup s1 g = none → dlookup s2 g = none →
      (reminder_loop g s1 s2).sends = []) := by
  refine ⟨?_, ?_, rfl, by decide, ?_⟩
  · by_cases h1 : truthyRef (dlookup s1 g) = true <;>
      by_cases h2 : truthyRef (dlookup s2 g) = true <;>
        simp [reminder_loop, ReminderRun.sends, h1, h2]
  · by_cases h1 : truthyRef (dlookup s1 g) = true <;>
      by_cases h2 : truthyRef (dlookup s2 g) = true <;>
        simp [reminder_loop, ReminderRun.sends, h1, h2]
  · intro h1 h2
    simp [reminder_loop, ReminderRun.sends, truthyRef, h1, h2]

/-- Witness for C6: a job whose entry was removed before the first wait
elapsed (and stayed removed) sends nothing, and sends are bounded by
two. -/
theorem reminder_job_bounded_schedule_witness :
    (reminder_loop "g1" [] []).sends.length ≤ 2 ∧
    (reminder_loop "g1" [] []).sends = [] :=
  ⟨(reminder_job_bounded_schedule "g1" [] []).1,
   (reminder_job_bounded_schedule "g1" [] []).2.2.2.2 rfl rfl⟩

/-- C1 (counterexample): after a mid-cycle failure, the same message IS
delivered again.  Cycle 1 delivers `gA` (timestamp 1500 > cursor 1000),
then aborts on `gB`, whose parsed sender has no `@` — so the cursor
stays at 1000.  Cycle 2 re-fetches the still-unread `gA`, finds its
timestamp above the unadvanced cursor, and — the loop never consults the
tracked store before sending — delivers it a second time: the identical
delivery notification occurs twice across the two cycles, and the first
cycle's failure is visible in its `ok` flag. -/
theorem duplicate_delivery_after_midcycle_failure :
    (pollCycle ["a@x.com"] 1000 []
      [⟨"gA", 1500, "a@x.com"⟩, ⟨"gB", 1600, "no-at-sign"⟩]).ok = false ∧
    ((pollCycle ["a@x.com"] 1000 []
        [⟨"gA", 1500, "a@x.com"⟩, ⟨"gB", 1600, "no-at-sign"⟩]).events ++
      (pollCycle ["a@x.com"]
        (pollCycle ["a@x.com"] 1000 []
          [⟨"gA", 1500, "a@x.com"⟩, ⟨"gB", 1600, "no-at-sign"⟩]).cursor
        (pollCycle ["a@x.com"] 1000 []
          [⟨"gA", 1500, "a@x.com"⟩, ⟨"gB", 1600, "no-at-sign"⟩]).store
        [⟨"gA", 1500, "a@x.com"⟩, ⟨"gB", 1600, "no-at-sign"⟩]).events).countP
      (fun ev => ev == Event.sendNotif "gA" 1500 1) = 2 := by
  decide

/-- C1 (amended): when the earlier cycle COMPLETES, no later cycle
re-delivers any message fetched in it: every message fetched in a
completed cycle has its timestamp folded into the cursor, the cursor
never decreases across the intervening cycles, and each cycle only
delivers messages with timestamps strictly above its start cursor — so
every delivery of the later cycle has a strictly larger timestamp than
every message of the completed cycle.  (After a mid-cycle failure the
cursor is left unadvanced and re-delivery is possible, since the loop
never consults the tracked store to deduplicate.) -/
theorem no_redelivery_after_completed_cycle
    (entries : List String) (c : Nat) (s : Store) (msgs1 : List Msg)
    (bs : List (List Msg)) (msgs2 : List Msg) (m : Msg) (g : String)
    (t i : Nat)
    (hok : (pollCycle entries c s msgs1).ok = true)
    (hm : m ∈ msgs1)
    (hsend : Event.sendNotif g t i ∈
      (pollCycle entries
        (pollMany entries
          ((pollCycle entries c s msgs1).cursor,
            (pollCycle entries c s msgs1).store) bs).1
        (pollMany entries
          ((pollCycle entries c s msgs1).cursor,
            (pollCycle entries c s msgs1).store) bs).2
        msgs2).events) :
    m.ts < t := by
  have hge : m.ts ≤ (pollCycle entries c s msgs1).cursor := by
    rw [pollCycle_ok_cursor entries c s msgs1 hok]
    exact mem_le_foldl_max hm c
  have hmany := pollMany_cursor_mono entries bs
    (pollCycle entries c s msgs1).cursor (pollCycle entries c s msgs1).store
  have hgt := pollCycle_send_gt entries
    (pollMany entries
      ((pollCycle entries c s msgs1).cursor,
        (pollCycle entries c s msgs1).store) bs).1
    (pollMany entries
      ((pollCycle entries c s msgs1).cursor,
        (pollCycle entries c s msgs1).store) bs).2
    msgs2 g t i hsend
  exact lt_of_le_of_lt (le_trans hge hmany) hgt

/-- Witness for the amended C1: a completed cycle delivering `gA` at
timestamp 1500 is followed (with no intervening cycles) by a cycle
delivering `gC` at 2000; the theorem yields 1500 < 2000. -/
theorem no_redelivery_after_completed_cycle_witness : (1500 : Nat) < 2000 :=
  no_redelivery_after_completed_cycle ["a@x.com"] 1000 []
    [⟨"gA", 1500, "a@x.com"⟩] [] [⟨"gC", 2000, "a@x.com"⟩]
    ⟨"gA", 1500, "a@x.com"⟩ "gC" 2000 1
    (by decide) (by decide) (by decide)

/-- C5 (counterexample): the cursor does NOT always advance past a
blocked message's timestamp.  A cycle whose blocked message `gB`
(timestamp 1500, sender not on the allow-list) is processed — and duly
recorded with a null notification reference — and which then aborts on
`gC`, whose parsed sender has no `@`, never reaches the cursor
assignment: the persisted cursor stays at 1000, below 1500, so `gB` is
re-compared against the cursor in the next cycle. -/
theorem blocked_message_cursor_unadvanced_on_abort :
    dlookup (pollCycle ["a@x.com"] 1000 []
      [⟨"gB", 1500, "b@y.com"⟩, ⟨"gC", 1600, "postmaster"⟩]).store "gB"
      = some none ∧
    (pollCycle ["a@x.com"] 1000 []
      [⟨"gB", 1500, "b@y.com"⟩, ⟨"gC", 1600, "postmaster"⟩]).cursor = 1000 ∧
    ¬ (1500 ≤ (pollCycle ["a@x.com"] 1000 []
      [⟨"gB", 1500, "b@y.com"⟩, ⟨"gC", 1600, "postmaster"⟩]).cursor) := by
  decide

/-- C5 (amended): in a COMPLETED cycle over messages with distinct ids,
a new message whose sender is blocked by the allow-list generates no
delivery notification and no reminder job, is recorded in the store with
a null notification reference, and still has its timestamp folded into
the advanced cursor; and a store entry with a null reference never
causes either reminder of a reminder job to be sent.  (When the cycle
aborts after processing the blocked message, the entry is still recorded
but the cursor does not advance past its timestamp, so the message is
re-compared — though still blocked and never delivered — in later
cycles.) -/
theorem blocked_message_recorded_never_delivered
    (entries : List String) (c : Nat) (s : Store) (msgs : List Msg) (m : Msg)
    (hnd : (msgs.map Msg.gid).Nodup) (hm : m ∈ msgs) (hts : c < m.ts)
    (hblock : wlAllows entries m.addr = some false)
    (hok : (pollCycle entries c s msgs).ok = true) :
    (∀ t i, Event.sendNotif m.gid t i ∉ (pollCycle entries c s msgs).events) ∧
    Event.startReminder m.gid ∉ (pollCycle entries c s msgs).events ∧
    dlookup (pollCycle entries c s msgs).store m.gid = some none ∧
    m.ts ≤ (pollCycle entries c s msgs).cursor ∧
    (∀ g s1 s2, dlookup s1 g = some none → dlookup s2 g = some none →
      (reminder_loop g s1 s2).sends = []) := by
  have hrok := pollCycle_ok_run entries c s msgs hok
  have hinj := List.inj_on_of_nodup_map hnd
  refine ⟨?_, ?_, ?_, ?_, ?_⟩
  · intro t i hmem
    simp only [pollCycle, if_pos hrok, List.mem_append] at hmem
    rcases hmem with hmem | hmem
    · obtain ⟨m', hm', hgid, _, _, hallow⟩ :=
        runMsgs_send_origin c entries msgs c s 1 m.gid t i hmem
      have : m' = m := hinj hm' hm hgid
      subst this
      rw [hblock] at hallow
      cases hallow
    · simp at hmem
  · intro hmem
    simp only [pollCycle, if_pos hrok, List.mem_append] at hmem
    rcases hmem with hmem | hmem
    · obtain ⟨m', hm', hgid, _, hallow⟩ :=
        runMsgs_reminder_origin c entries msgs c s 1 m.gid hmem
      have : m' = m := hinj hm' hm hgid
      subst this
      rw [hblock] at hallow
      cases hallow
    · simp at hmem
  · simp only [pollCycle, if_pos hrok]
    exact runMsgs_blocked_store c entries msgs c s 1 m hnd hm hts hblock hrok
  · rw [pollCycle_ok_cursor entries c s msgs hok]
    exact mem_le_foldl_max hm c
  · intro g s1 s2 h1 h2
    simp [reminder_loop, ReminderRun.sends, truthyRef, h1, h2]

/-- Witness for C5: cursor 1000, one new message `gB` at 1500 from a
sender not on the allow-list; the cycle records it with a null
reference, advances the cursor, delivers nothing, and a null-reference
entry silences both reminders. -/
theorem blocked_message_recorded_never_delivered_witness :
    Event.sendNotif "gB" 1500 1 ∉
      (pollCycle ["a@x.com"] 1000 [] [⟨"gB", 1500, "b@y.com"⟩]).events ∧
    Event.startReminder "gB" ∉
      (pollCycle ["a@x.com"] 1000 [] [⟨"gB", 1500, "b@y.com"⟩]).events ∧
    dlookup (pollCycle ["a@x.com"] 1000 []
      [⟨"gB", 1500, "b@y.com"⟩]).store "gB" = some none ∧
    1500 ≤ (pollCycle ["a@x.com"] 1000 [] [⟨"gB", 1500, "b@y.com"⟩]).cursor ∧
    (reminder_loop "gB" [("gB", none)] [("gB", none)]).sends = [] :=
  let h := blocked_message_recorded_never_delivered
    ["a@x.com"] 1000 [] [⟨"gB", 1500, "b@y.com"⟩] ⟨"gB", 1500, "b@y.com"⟩
    (by decide) (by decide) (by decide) (by decide) (by decide)
  ⟨h.1 1500 1, h.2.1, h.2.2.1, h.2.2.2.1,
   h.2.2.2.2 "gB" [("gB", none)] [("gB", none)] (by decide) (by decide)⟩

/-- C7 (counterexample): in a completed cycle that processes two new
messages (one delivered, one blocked) the tracked-message store is
persisted twice, once after each processed message inside the loop — not
once at the end of the cycle; only the cursor is persisted once at the
end. -/
theorem store_persisted_twice_in_one_cycle :
    ((pollCycle ["a@x.com"] 1000 []
      [⟨"g1", 1500, "a@x.com"⟩, ⟨"g2", 1600, "b@y.com"⟩]).events.filter
        isPersistStore).length = 2 ∧
    ((pollCycle ["a@x.com"] 1000 []
      [⟨"g1", 1500, "a@x.com"⟩, ⟨"g2", 1600, "b@y.com"⟩]).events.filter
        isPersistCursor).length = 1 := by
  decide

/-- C7 (amended): during a completed poll cycle the persisted cursor is
written exactly once, by the cycle-end `save_state`, and that write is
the last action of the cycle; the persisted tracked-message store,
however, is written once per processed message (every fetched message
whose timestamp exceeds the cycle-start cursor, blocked or delivered),
inside the loop rather than at the cycle boundary. -/
theorem cursor_persisted_once_at_end_store_per_message
    (entries : List String) (c : Nat) (s : Store) (msgs : List Msg)
    (hok : (pollCycle entries c s msgs).ok = true) :
    ((pollCycle entries c s msgs).events.filter isPersistCursor) =
      [Event.persistCursor (pollCycle entries c s msgs).cursor] ∧
    (pollCycle entries c s msgs).events.getLast? =
      some (Event.persistCursor (pollCycle entries c s msgs).cursor) ∧
    ((pollCycle entries c s msgs).events.filter isPersistStore).length =
      msgs.countP (fun m => decide (c < m.ts)) := by
  have hrok := pollCycle_ok_run entries c s msgs hok
  refine ⟨?_, ?_, ?_⟩
  · simp only [pollCycle, if_pos hrok]
    rw [List.filter_append,
      filter_eq_nil_of_none _ _ (runMsgs_no_persistCursor c entries msgs c s 1)]
    simp [isPersistCursor]
  · simp only [pollCycle, if_pos hrok]
    exact getLast?_app_single _ _
  · simp only [pollCycle, if_pos hrok]
    rw [List.filter_append]
    simp only [List.filter_cons, isPersistStore, Bool.false_eq_true, if_false,
      List.filter_nil, List.append_nil]
    exact runMsgs_persist_count c entries msgs c s 1 hrok

/-- Witness for the amended C7 at a concrete completed cycle with one
processed message. -/
theorem cursor_persisted_once_at_end_store_per_message_witness :
    ((pollCycle ["a@x.com"] 1000 [] [⟨"g1", 1500, "a@x.com"⟩]).events.filter
      isPersistCursor) =
      [Event.persistCursor
        (pollCycle ["a@x.com"] 1000 [] [⟨"g1", 1500, "a@x.com"⟩]).cursor] ∧
    (pollCycle ["a@x.com"] 1000 [] [⟨"g1", 1500, "a@x.com"⟩]).events.getLast? =
      some (Event.persistCursor
        (pollCycle ["a@x.com"] 1000 [] [⟨"g1", 1500, "a@x.com"⟩]).cursor) ∧
    ((pollCycle ["a@x.com"] 1000 [] [⟨"g1", 1500, "a@x.com"⟩]).events.filter
      isPersistStore).length =
      [Msg.mk "g1" 1500 "a@x.com"].countP (fun m => decide (1000 < m.ts)) :=
  cursor_persisted_once_at_end_store_per_message
    ["a@x.com"] 1000 [] [⟨"g1", 1500, "a@x.com"⟩] (by decide)

/-- C8 (counterexample): a cycle fed two new allowed messages in the
mailbox listing order timestamp-2000-then-1500 delivers them in that
order — descending, not ascending, timestamps. -/
theorem deliveries_not_sorted_by_timestamp :
    deliveredTs (pollCycle ["a@x.com"] 1000 []
      [⟨"g1", 2000, "a@x.com"⟩, ⟨"g2", 1500, "a@x.com"⟩]).events
      = [2000, 1500] ∧
    ¬ List.Sorted (· ≤ ·)
      (deliveredTs (pollCycle ["a@x.com"] 1000 []
        [⟨"g1", 2000, "a@x.com"⟩, ⟨"g2", 1500, "a@x.com"⟩]).events) := by
  constructor
  · decide
  · decide

/-- C8 (amended): within a completed cycle, delivery notifications go
out in the order of the mailbox listing — the delivered ids are exactly
the new-and-allowed messages as an order-preserving sublist of the fetch
order; ascending-timestamp order holds only when the listing itself is
ascending (`src/main.py` never sorts the fetched batch). -/
theorem deliveries_follow_mailbox_listing_order
    (entries : List String) (c : Nat) (s : Store) (msgs : List Msg)
    (hok : (pollCycle entries c s msgs).ok = true) :
    deliveredGids (pollCycle entries c s msgs).events =
      (msgs.filter (fun m =>
        decide (c < m.ts) && (wlAllows entries m.addr == some true))).map
        Msg.gid := by
  have hrok := pollCycle_ok_run entries c s msgs hok
  have hd := runMsgs_delivered c entries msgs c s 1 hrok
  simp only [pollCycle, if_pos hrok, deliveredGids, List.filterMap_append] at hd ⊢
  simpa using hd

/-- Witness for the amended C8: one allowed and one blocked new message;
the delivered ids equal the filtered fetch order. -/
theorem deliveries_follow_mailbox_listing_order_witness :
    deliveredGids (pollCycle ["a@x.com"] 1000 []
      [⟨"g1", 1500, "a@x.com"⟩, ⟨"g2", 1600, "b@y.com"⟩]).events =
      ([⟨"g1", 1500, "a@x.com"⟩, ⟨"g2", 1600, "b@y.com"⟩].filter
        (fun m : Msg =>
          decide (1000 < m.ts) && (wlAllows ["a@x.com"] m.addr == some true))).map
        Msg.gid :=
  deliveries_follow_mailbox_listing_order ["a@x.com"] 1000 []
    [⟨"g1", 1500, "a@x.com"⟩, ⟨"g2", 1600, "b@y.com"⟩] (by decide)

/-- C4 (counterexample): in src/main.py the acknowledgment handler never
checks membership: invoked on an id absent from the store it still
clears the mailbox unread flag, rewrites the store file, edits the chat
message to strike-through, and answers "Marked as read." rather than
reporting not-found. -/
theorem ack_of_unknown_id_has_side_effects :
    dlookup [] "g1" = none ∧
    AckEvent.clearUnread "g1" ∈ (cb_mark_read_main "g1" [] false).2 ∧
    AckEvent.persistStore [] ∈ (cb_mark_read_main "g1" [] false).2 ∧
    AckEvent.editStrike ∈ (cb_mark_read_main "g1" [] false).2 ∧
    AckEvent.answer "Marked as read." ∈ (cb_mark_read_main "g1" [] false).2 := by
  decide

/-- C4 (amended): in the stable variant (src/mainSTABLE.py) the
acknowledgment handler does check the store first: on an id with no
store entry it only answers the callback (with empty text, its
not-found report) and nothing else happens — the store is returned
unchanged and no mailbox-flag, edit, cancel or persist action is
emitted.  The src/main.py variant performs its side effects
unconditionally. -/
theorem ack_of_unknown_id_noop_in_stable
    (g : String) (store : Store) (hasTask : Bool)
    (h : dlookup store g = none) :
    cb_mark_read_stable g store hasTask = (store, [AckEvent.answerEmpty]) ∧
    AckEvent.clearUnread g ∉ (cb_mark_read_stable g store hasTask).2 ∧
    AckEvent.editStrike ∉ (cb_mark_read_stable g store hasTask).2 ∧
    (∀ g2, AckEvent.cancelTask g2 ∉ (cb_mark_read_stable g store hasTask).2) ∧
    (∀ s2, AckEvent.persistStore s2 ∉ (cb_mark_read_stable g store hasTask).2) := by
  simp [cb_mark_read_stable, h]

/-- Witness for the amended C4: acknowledging `g1` while only `g2` is
tracked leaves the stable handler's store unchanged with a bare
callback answer. -/
theorem ack_of_unknown_id_noop_in_stable_witness :
    cb_mark_read_stable "g1" [("g2", some 3)] true =
      ([("g2", some 3)], [AckEvent.answerEmpty]) :=
  (ack_of_unknown_id_noop_in_stable "g1" [("g2", some 3)] true (by decide)).1

end GtelegBot
